import Mathlib

/-!
Verification of the durable shared-log subsystem of the mcp_agent_messenging
repository (persistence.ts, chat-manager.ts, types.ts), as a shallow embedding.

Modelling conventions:
* A JS Date time value is milliseconds since the Unix epoch; an Invalid Date
  (internal NaN) is modelled as `none` of `Option Nat` (`DateVal`).
* `Date.prototype.toISOString` / `new Date(string)` are ECMA-262 built-ins;
  they are embedded as executable functions (`dateToISOString`,
  `newDateOfString`) implementing the ECMA-262 proleptic-Gregorian calendar
  conversion and the Date Time String Format "YYYY-MM-DDTHH:mm:ss.sssZ".
  Timestamps at or after year 10000 would use ECMA's expanded-year form and
  are outside the model (`dateToISOString` returns `none` there).
* `JSON.stringify`/`JSON.parse` and `zlib.gzip`/`zlib.gunzip` are external
  libraries forming a lossless pair on well-formed data; the codec is
  therefore modelled on the structured value (`SerializableChatRoom`), with
  decode failures of those layers represented by `FileRead.corruptData`.
* `crypto.createHash("sha256")` is the external node:crypto library; it is
  modelled by an executable deterministic digest stand-in; only the produced
  file-name suffix ".json.gz" matters to the theorems below.
* Asynchronous effects (fs, proper-lockfile) are modelled by explicit
  parameters: the decoded on-disk state, and `Option String` error outcomes
  for lock acquisition, save, and lock release. A `try`/`finally` block
  follows JS semantics: an error thrown while awaiting the `finally` body
  replaces the in-flight result.
-/

namespace McpMessaging

/-! ## Calendar arithmetic (ECMA-262 Date built-ins)

Days/civil conversion in the proleptic Gregorian calendar, working in a
March-shifted year (March = shifted month 0) and 400-year eras.
-/

/-- Cumulative day offset of shifted month `mp` (March = 0) in a shifted year. -/
def monthStart (mp : Nat) : Nat := (153 * mp + 2) / 5

/-- Shifted month index (March = 0) of a day of the shifted year. -/
def monthOfDoy (doy : Nat) : Nat := (5 * doy + 2) / 153

/-- Day-of-era: days into the 400-year Gregorian era (era day 0 = a March 1). -/
def doeOfZ (z : Nat) : Nat := (z + 719468) % 146097

/-- Index of the 400-year Gregorian era containing epoch day `z`. -/
def eraOfZ (z : Nat) : Nat := (z + 719468) / 146097

/-- Century within the era (0..3). -/
def centOf (doe : Nat) : Nat := if doe / 36524 < 3 then doe / 36524 else 3

/-- Day within the century. -/
def docentOf (doe : Nat) : Nat := doe - centOf doe * 36524

/-- Four-year block within the century (0..24). -/
def quadOf (doe : Nat) : Nat := docentOf doe / 1461

/-- Day within the four-year block. -/
def doqOf (doe : Nat) : Nat := docentOf doe - quadOf doe * 1461

/-- Year within the four-year block (0..3). -/
def yqOf (doe : Nat) : Nat := if doqOf doe / 365 < 3 then doqOf doe / 365 else 3

/-- Year-of-era (0..399) of a day-of-era. -/
def yoeOfDoe (doe : Nat) : Nat := 100 * centOf doe + 4 * quadOf doe + yqOf doe

/-- Day-of-era on which the shifted year-of-era `yoe` starts (its March 1). -/
def startOfYoe (yoe : Nat) : Nat := 365 * yoe + yoe / 4 - yoe / 100

/-- Day within the March-shifted year of a day-of-era. -/
def doyOfDoe (doe : Nat) : Nat := doe - startOfYoe (yoeOfDoe doe)

/-- Shifted month (March = 0) of epoch day `z`. -/
def mpOfZ (z : Nat) : Nat := monthOfDoy (doyOfDoe (doeOfZ z))

/-- Calendar month (1..12) of epoch day `z`. -/
def monthOfZ (z : Nat) : Nat := if mpOfZ z < 10 then mpOfZ z + 3 else mpOfZ z - 9

/-- Calendar day of month (1..31) of epoch day `z`. -/
def dayOfZ (z : Nat) : Nat := doyOfDoe (doeOfZ z) - monthStart (mpOfZ z) + 1

/-- Calendar year of epoch day `z`. -/
def yearOfZ (z : Nat) : Nat :=
  (if monthOfZ z ≤ 2 then 1 else 0) + yoeOfDoe (doeOfZ z) + eraOfZ z * 400

/-- Year shifted so that the shifted year starts in March. -/
def yShift (y m : Nat) : Nat := if m ≤ 2 then y - 1 else y

/-- Shifted month index (March = 0) of a calendar month (1..12). -/
def mpOfMonth (m : Nat) : Nat := if 2 < m then m - 3 else m + 9

/-- Day of the March-shifted year of a calendar (month, day). -/
def doyOfCivil (m d : Nat) : Nat := monthStart (mpOfMonth m) + d - 1

/-- (year, month, day) to days since 1970-01-01 (ECMA-262 MakeDay). -/
def daysFromCivil (y m d : Nat) : Nat :=
  yShift y m / 400 * 146097 +
    (startOfYoe (yShift y m % 400) + doyOfCivil m d) - 719468

/-! ## ISO-8601 rendering and parsing -/

/-- Fixed-width decimal rendering, most significant digit first. -/
def padNum : Nat → Nat → List Char
  | 0, _ => []
  | w + 1, n => Nat.digitChar (n / 10 ^ w) :: padNum w (n % 10 ^ w)

/-- Reads one decimal digit. -/
def readDigit (c : Char) : Option Nat :=
  if '0' ≤ c ∧ c ≤ '9' then some (c.toNat - 48) else none

/-- Reads exactly `w` decimal digits, accumulating into `acc`. -/
def readFixed : Nat → Nat → List Char → Option (Nat × List Char)
  | 0, acc, cs => some (acc, cs)
  | _ + 1, _, [] => none
  | w + 1, acc, c :: cs =>
    match readDigit c with
    | some d => readFixed w (acc * 10 + d) cs
    | none => none

/-- Consumes one expected character. -/
def expectChar (c : Char) : List Char → Option (List Char)
  | x :: xs => if x = c then some xs else none
  | [] => none

/-- ISO-8601 UTC rendering of a millisecond timestamp, as characters
(ECMA-262 Date.prototype.toISOString for years 0..9999). -/
def toISOChars (t : Nat) : List Char :=
  padNum 4 (yearOfZ (t / 86400000)) ++ '-' ::
    (padNum 2 (monthOfZ (t / 86400000)) ++ '-' ::
      (padNum 2 (dayOfZ (t / 86400000)) ++ 'T' ::
        (padNum 2 (t % 86400000 / 3600000) ++ ':' ::
          (padNum 2 (t % 3600000 / 60000) ++ ':' ::
            (padNum 2 (t % 60000 / 1000) ++ '.' ::
              (padNum 3 (t % 1000) ++ ['Z']))))))

/-- Reads `w` digits followed by the separator `sep`. -/
def readNumSep (w : Nat) (sep : Char) (cs : List Char) : Option (Nat × List Char) :=
  Option.bind (readFixed w 0 cs) fun r =>
    Option.bind (expectChar sep r.2) fun cs2 => some (r.1, cs2)

def parseMsTail (y mo d hh mi ss : Nat) (cs : List Char) : Option Nat :=
  Option.bind (readFixed 3 0 cs) fun r =>
    Option.bind (expectChar 'Z' r.2) fun cs2 =>
      if cs2 = [] then
        some (daysFromCivil y mo d * 86400000 +
          hh * 3600000 + mi * 60000 + ss * 1000 + r.1)
      else none

def parseSecTail (y mo d hh mi : Nat) (cs : List Char) : Option Nat :=
  Option.bind (readNumSep 2 '.' cs) fun r => parseMsTail y mo d hh mi r.1 r.2

def parseMinTail (y mo d hh : Nat) (cs : List Char) : Option Nat :=
  Option.bind (readNumSep 2 ':' cs) fun r => parseSecTail y mo d hh r.1 r.2

def parseHourTail (y mo d : Nat) (cs : List Char) : Option Nat :=
  Option.bind (readNumSep 2 ':' cs) fun r => parseMinTail y mo d r.1 r.2

def parseDayTail (y mo : Nat) (cs : List Char) : Option Nat :=
  Option.bind (readNumSep 2 'T' cs) fun r => parseHourTail y mo r.1 r.2

def parseMonthTail (y : Nat) (cs : List Char) : Option Nat :=
  Option.bind (readNumSep 2 '-' cs) fun r => parseDayTail y r.1 r.2

/-- Parses an ISO-8601 UTC timestamp "YYYY-MM-DDTHH:mm:ss.sssZ" back to
milliseconds (ECMA-262 Date Time String Format parsing, as done by
new Date(string) on the strings the codec produces). -/
def parseISOChars (cs : List Char) : Option Nat :=
  Option.bind (readNumSep 4 '-' cs) fun r => parseMonthTail r.1 r.2

/-! ## Data model (types.ts) -/

/-- A JS Date time value: milliseconds since the epoch; `none` models an
Invalid Date (internal NaN). -/
abbrev DateVal := Option Nat

/-- The message type union of types.ts. -/
inductive MessageType where
  | text
  | system
  | command
  | notification
deriving DecidableEq

/-- Opaque serializable metadata attachment (the serializable restriction of
Record with unknown values); it is carried verbatim by every operation and by
the codec. -/
abbrev Metadata := List (String × String)

/-- One message (types.ts Message). -/
structure Message where
  id : String
  sender : String
  content : String
  timestamp : DateVal
  type : MessageType
  metadata : Option Metadata
deriving DecidableEq

/-- One chat room (types.ts ChatRoom). The lastSeen JS object is modelled as
an association list in key insertion order (JS objects preserve it). -/
structure ChatRoom where
  projectPath : String
  messages : List Message
  createdAt : DateVal
  lastSeen : List (String × DateVal)
deriving DecidableEq

/-! ## Serialization codec (persistence.ts SerializableChatRoom,
saveChatRoom / loadChatRoom field mapping) -/

/-- A serialized message: timestamp rendered as an ISO-8601 string. -/
structure SerializableMessage where
  id : String
  sender : String
  content : String
  timestamp : String
  type : MessageType
  metadata : Option Metadata
deriving DecidableEq

/-- The persisted shape of a chat room (persistence.ts SerializableChatRoom);
lastSeen is an optional field there. -/
structure SerializableChatRoom where
  projectPath : String
  messages : List SerializableMessage
  createdAt : String
  lastSeen : Option (List (String × String))
deriving DecidableEq

/-- Date.prototype.toISOString: renders a valid Date with millisecond
precision; throws (none) on an Invalid Date; years at or after 10000 would
use the expanded-year form, which is outside this model. -/
def dateToISOString (d : DateVal) : Option String :=
  match d with
  | none => none
  | some t => if t < 253402300800000 then some (String.mk (toISOChars t)) else none

/-- new Date(string) on the ISO strings the codec produces: an unparseable
string yields an Invalid Date (none). -/
def newDateOfString (s : String) : DateVal := parseISOChars s.data

/-- The per-message mapping of saveChatRoom (lines 98-105 of persistence.ts). -/
def serializeMessage (m : Message) : Option SerializableMessage :=
  Option.bind (dateToISOString m.timestamp) fun ts =>
    some ⟨m.id, m.sender, m.content, ts, m.type, m.metadata⟩

def serializeMessages : List Message → Option (List SerializableMessage)
  | [] => some []
  | m :: ms =>
    Option.bind (serializeMessage m) fun sm =>
      Option.bind (serializeMessages ms) fun sms => some (sm :: sms)

/-- The lastSeen serialization loop of saveChatRoom (lines 91-94). -/
def serializeLastSeen : List (String × DateVal) → Option (List (String × String))
  | [] => some []
  | (k, d) :: rest =>
    Option.bind (dateToISOString d) fun s =>
      Option.bind (serializeLastSeen rest) fun srest => some ((k, s) :: srest)

/-- The encoding half of the codec: saveChatRoom's construction of the
SerializableChatRoom (persistence.ts lines 88-111); the subsequent
JSON.stringify + gzip layers are the external lossless pair. Returns none
when a timestamp cannot be rendered (Invalid Date). -/
def saveChatRoomData (room : ChatRoom) : Option SerializableChatRoom :=
  Option.bind (serializeMessages room.messages) fun ms =>
    Option.bind (dateToISOString room.createdAt) fun ca =>
      Option.bind (serializeLastSeen room.lastSeen) fun ls =>
        some ⟨room.projectPath, ms, ca, some ls⟩

/-- The per-message mapping of loadChatRoom (lines 143-150). -/
def deserializeMessage (m : SerializableMessage) : Message :=
  ⟨m.id, m.sender, m.content, newDateOfString m.timestamp, m.type, m.metadata⟩

/-- The decoding half of the codec: loadChatRoom's reconstruction from the
parsed SerializableChatRoom (persistence.ts lines 139-161). Total: a bad
timestamp string becomes an Invalid Date, not an error. -/
def loadChatRoomData (d : SerializableChatRoom) : ChatRoom :=
  ⟨d.projectPath,
   d.messages.map deserializeMessage,
   newDateOfString d.createdAt,
   match d.lastSeen with
   | none => []
   | some l => l.map fun kv => (kv.1, newDateOfString kv.2)⟩

/-! ## Durable store (persistence.ts) -/

/-- Stand-in for hex(sha256(s)) of node:crypto (an external library): an
executable deterministic digest-like encoding of the string; only determinism
and the file-name suffix appended below matter to the theorems. -/
def sha256Hex (s : String) : String :=
  String.join (s.data.map fun c => toString c.toNat)

/-- pathToFilename (persistence.ts lines 67-72): digest plus ".json.gz". -/
def pathToFilename (projectPath : String) : String :=
  sha256Hex projectPath ++ ".json.gz"

/-- The outcome of fs.readFile + gunzip + JSON.parse on a room's backing
file, as observed by loadChatRoom (persistence.ts lines 128-169). -/
inductive FileRead where
  /-- fs.readFile rejected with code ENOENT. -/
  | missing
  /-- fs.readFile rejected with any other error (e.g. permission denied). -/
  | readFailure (e : String)
  /-- gunzip rejected or JSON.parse threw on the bytes read. -/
  | corruptData (e : String)
  /-- the file decompressed and parsed to a SerializableChatRoom. -/
  | wellFormed (d : SerializableChatRoom)

/-- loadChatRoom (persistence.ts lines 128-169): ENOENT becomes null (no
error); every other read or decode failure is rethrown; well-formed data is
reconstructed via the codec. -/
def loadChatRoom (f : FileRead) : Except String (Option ChatRoom) :=
  match f with
  | .missing => .ok none
  | .readFailure e => .error e
  | .corruptData e => .error e
  | .wellFormed d => .ok (some (loadChatRoomData d))

/-- What a data-directory entry looks like to fs.readFile with utf-8
encoding followed by JSON.parse, as listSavedChatRooms reads it. -/
inductive FileContent where
  /-- gzip-compressed JSON of a room (what saveChatRoom writes). -/
  | gzipData (d : SerializableChatRoom)
  /-- plain uncompressed JSON text of a room. -/
  | plainJson (d : SerializableChatRoom)
  /-- anything else. -/
  | invalid
deriving DecidableEq

/-- A file of the data directory. -/
structure StoredFile where
  name : String
  content : FileContent
deriving DecidableEq

/-- fs.readFile(path, utf-8) + JSON.parse as used by listSavedChatRooms:
gzip bytes read as text fail JSON.parse; only plain JSON text parses. -/
def readUtf8Json : FileContent → Option SerializableChatRoom
  | .plainJson d => some d
  | _ => none

/-- Whether the character list `needle` occurs at the start of `hay`. -/
def startsWithChars : List Char → List Char → Bool
  | [], _ => true
  | _ :: _, [] => false
  | a :: as, b :: bs => a = b && startsWithChars as bs

/-- JS String.prototype.endsWith on character lists. -/
def endsWithChars (s post : List Char) : Bool :=
  startsWithChars post.reverse s.reverse

/-- JS String.prototype.includes on character lists. -/
def containsChars : List Char → List Char → Bool
  | needle, [] => needle.isEmpty
  | needle, c :: rest =>
    startsWithChars needle (c :: rest) || containsChars needle rest

/-- The file saveChatRoom writes for a room: name from pathToFilename,
content gzip-compressed JSON of the encoded room (persistence.ts
lines 88-121). -/
def saveChatRoomFile (room : ChatRoom) : Option StoredFile :=
  Option.bind (saveChatRoomData room) fun d =>
    some ⟨pathToFilename room.projectPath, .gzipData d⟩

/-- listSavedChatRooms (persistence.ts lines 319-342): scans the data
directory, keeps names ending in ".json", reads each as utf-8 text, parses
it as JSON and collects the recorded projectPath, skipping files that fail. -/
def listSavedChatRooms (dir : List StoredFile) : List String :=
  match dir with
  | [] => []
  | f :: rest =>
    if endsWithChars f.name.data ".json".data then
      match readUtf8Json f.content with
      | some d => d.projectPath :: listSavedChatRooms rest
      | none => listSavedChatRooms rest
    else listSavedChatRooms rest

/-! ## Atomic update coordinator (persistence.ts atomicUpdateChatRoom) -/

/-- Errors as delivered to the caller of atomicUpdateChatRoom. -/
inductive AtomicError where
  /-- the coordinator's own "Chat room disappeared during lock acquisition". -/
  | roomDisappeared
  /-- a JS error propagated from the lock library, the mutate function, the
  save, or the lock release. -/
  | jsError (e : String)
deriving DecidableEq

/-- The observable outcome of one atomicUpdateChatRoom call. -/
structure AtomicOutcome where
  /-- what the caller's awaited promise settles to. -/
  result : Except AtomicError ChatRoom
  /-- the decoded content of the backing file afterwards. -/
  disk : Option ChatRoom
  /-- whether saveChatRoom was invoked inside the critical section. -/
  saveCalled : Bool
  /-- whether the lock release function was invoked. -/
  releaseCalled : Bool

/-- The empty chat room synthesized before locking when the backing file is
absent (persistence.ts lines 190-196). -/
def emptyChatRoom (projectPath : String) (now : Nat) : ChatRoom :=
  ⟨projectPath, [], some now, []⟩

/-- Step 1 of the protocol: ensure the backing file exists before locking;
returns the room the subsequent fresh load observes. -/
def ensureFileExists (projectPath : String) (now : Nat)
    (disk : Option ChatRoom) : ChatRoom :=
  match disk with
  | some room => room
  | none => emptyChatRoom projectPath now

/-- atomicUpdateChatRoom (persistence.ts lines 178-223). Effects of the
environment are explicit parameters: the decoded on-disk state, and optional
error outcomes of lock acquisition, saveChatRoom, and the lock release. The
body is the try block; the finally block always awaits release() when the
lock was acquired, and, per JS semantics, an error from release() replaces
the in-flight result. -/
def atomicUpdateChatRoom (projectPath : String) (now : Nat)
    (disk0 : Option ChatRoom) (lockErr : Option String)
    (updateFn : ChatRoom → Except String ChatRoom)
    (saveErr : Option String) (releaseErr : Option String) : AtomicOutcome :=
  let disk1 : Option ChatRoom := some (ensureFileExists projectPath now disk0)
  match lockErr with
  | some e => ⟨.error (.jsError e), disk1, false, false⟩
  | none =>
    let body : Except AtomicError ChatRoom × Option ChatRoom × Bool :=
      match disk1 with
      | none => (.error .roomDisappeared, disk1, false)
      | some room =>
        match updateFn room with
        | .error e => (.error (.jsError e), disk1, false)
        | .ok room2 =>
          match saveErr with
          | some e => (.error (.jsError e), disk1, true)
          | none => (.ok room2, some room2, true)
    match releaseErr with
    | some e => ⟨.error (.jsError e), body.2.1, body.2.2, true⟩
    | none => ⟨body.1, body.2.1, body.2.2, true⟩

/-! ## Retention configuration (chat-manager.ts getMessageRetentionLimit) -/

/-- JS whitespace skipped by parseInt. -/
def isJsSpace (c : Char) : Bool :=
  c = ' ' || c = '\t' || c = '\n' || c = '\r'

def digitsToNat (ds : List Char) : Nat :=
  ds.foldl (fun a c => a * 10 + (c.toNat - 48)) 0

/-- parseInt(s, 10) of ECMA-262: skip whitespace, optional sign, longest
leading digit run; NaN (none) when there are no digits. -/
def parseIntJs (s : String) : Option Int :=
  let cs := s.data.dropWhile isJsSpace
  let signed : Bool × List Char :=
    match cs with
    | '-' :: rest => (true, rest)
    | '+' :: rest => (false, rest)
    | rest => (false, rest)
  let ds := signed.2.takeWhile fun c => decide ('0' ≤ c) && decide (c ≤ '9')
  if ds.isEmpty then none
  else
    let n := digitsToNat ds
    some (if signed.1 then -(n : Int) else (n : Int))

/-- The value getMessageRetentionLimit settles on, plus whether a
console.warn diagnostic was emitted. -/
structure RetentionConfig where
  limit : Int
  warned : Bool
deriving DecidableEq

/-- getMessageRetentionLimit (chat-manager.ts lines 20-46), reading the
MCP_MESSAGE_RETENTION_LIMIT environment variable: absent or empty gives the
default 1000; non-numeric warns and gives 1000; below 100 warns and gives
100; above 50000 warns and gives 50000; otherwise the value is used. -/
def getMessageRetentionLimit (env : Option String) : RetentionConfig :=
  match env with
  | none => ⟨1000, false⟩
  | some envLimit =>
    if envLimit = "" then ⟨1000, false⟩
    else
      match parseIntJs envLimit with
      | none => ⟨1000, true⟩
      | some limit =>
        if limit < 100 then ⟨100, true⟩
        else if limit > 50000 then ⟨50000, true⟩
        else ⟨limit, false⟩

/-! ## Chat manager operations (chat-manager.ts) -/

/-- Assignment to a JS object property: an existing key keeps its position
and gets the new value; a new key is appended. -/
def setLastSeen : List (String × DateVal) → String → DateVal →
    List (String × DateVal)
  | [], name, d => [(name, d)]
  | (k, v) :: rest, name, d =>
    if k = name then (k, d) :: rest else (k, v) :: setLastSeen rest name d

/-- The retention step of sendMessage (chat-manager.ts lines 141-150):
slice off the oldest excess entries when above the limit. -/
def pruneMessages (maxMessages : Nat) (msgs : List Message) : List Message :=
  if msgs.length > maxMessages then msgs.drop (msgs.length - maxMessages)
  else msgs

/-- The system entry pushed when the room is newly created
(chat-manager.ts lines 117-124). -/
def systemCreationMessage (myName sysId : String) (t : DateVal) : Message :=
  ⟨sysId, "System", "Chat room created by " ++ myName, t, .system, none⟩

/-- The mutate function sendMessage passes to atomicUpdateChatRoom
(chat-manager.ts lines 112-151). Generated UUIDs and clock reads enter as
parameters sysId, msgId, t1, t2, t3. -/
def sendMessageMutate (myName content : String) (type : MessageType)
    (metadata : Option Metadata) (maxMessages : Nat) (sysId msgId : String)
    (t1 t2 t3 : DateVal) (room : ChatRoom) : ChatRoom :=
  let room1 :=
    if room.messages.length = 0 then
      { room with messages :=
          room.messages ++ [systemCreationMessage myName sysId t1] }
    else room
  let newMessage : Message := ⟨msgId, myName, content, t2, type, metadata⟩
  let room2 :=
    { room1 with
      messages := room1.messages ++ [newMessage],
      lastSeen := setLastSeen room1.lastSeen myName t3 }
  { room2 with messages := pruneMessages maxMessages room2.messages }

/-- sendMessage (chat-manager.ts lines 94-164): runs its mutate through the
coordinator and returns the generated messageId to the caller. -/
def sendMessage (myName projectPath content : String) (type : MessageType)
    (metadata : Option Metadata) (maxMessages : Nat) (sysId msgId : String)
    (t1 t2 t3 : DateVal) (now : Nat) (disk0 : Option ChatRoom)
    (lockErr saveErr releaseErr : Option String) : AtomicOutcome × String :=
  (atomicUpdateChatRoom projectPath now disk0 lockErr
    (fun room => .ok (sendMessageMutate myName content type metadata
      maxMessages sysId msgId t1 t2 t3 room))
    saveErr releaseErr, msgId)

/-- The mutate function of heartbeat (chat-manager.ts lines 170-180). -/
def heartbeatMutate (myName : String) (t : DateVal) (room : ChatRoom) :
    ChatRoom :=
  { room with lastSeen := setLastSeen room.lastSeen myName t }

/-- getLastMessages (chat-manager.ts lines 189-214): a missing room gives
the empty list; otherwise the last `count` messages. -/
def getLastMessages (disk : Option ChatRoom) (count : Nat) : List Message :=
  match disk with
  | none => []
  | some room => room.messages.drop (room.messages.length - count)

/-- A Date comparison against a cutoff instant: NaN (Invalid Date) compares
false, as in JS. -/
def dateGe (d : DateVal) (cutoff : Option Int) : Bool :=
  match d, cutoff with
  | some t, some c => decide ((t : Int) ≥ c)
  | _, _ => false

/-- Strict Date comparison against a cutoff; NaN compares false. -/
def dateGt (d : DateVal) (cutoff : Int) : Bool :=
  match d with
  | some t => decide ((t : Int) > cutoff)
  | none => false

/-- The options record of getFilteredMessages. -/
structure FilterOptions where
  count : Option Nat
  sinceTimestamp : Option String
  lastSeconds : Option Nat
deriving DecidableEq

/-- getFilteredMessages (chat-manager.ts lines 222-259): a missing room
gives the empty list; otherwise filter by sinceTimestamp, then by the last
`lastSeconds` seconds, then keep the last `count`. -/
def getFilteredMessages (disk : Option ChatRoom) (now : Nat)
    (opts : FilterOptions) : List Message :=
  match disk with
  | none => []
  | some room =>
    let f1 :=
      match opts.sinceTimestamp with
      | none => room.messages
      | some s => room.messages.filter fun m =>
          dateGe m.timestamp ((newDateOfString s).map Int.ofNat)
    let f2 :=
      match opts.lastSeconds with
      | none => f1
      | some ls => f1.filter fun m =>
          dateGe m.timestamp (some ((now : Int) - (ls : Int) * 1000))
    match opts.count with
    | none => f2
    | some c => f2.drop (f2.length - c)

/-- searchMessages (chat-manager.ts lines 268-280): case-insensitive
substring match on content; a missing room gives the empty list. -/
def searchMessages (disk : Option ChatRoom) (query : String) : List Message :=
  match disk with
  | none => []
  | some room =>
    room.messages.filter fun m =>
      containsChars query.toLower.data m.content.toLower.data

/-- getAgentNames (chat-manager.ts lines 289-312): a missing room gives just
the caller's own name; otherwise the labels active in the last five minutes,
the caller added, deduplicated and sorted. -/
def getAgentNames (disk : Option ChatRoom) (myName : String) (now : Nat) :
    List String :=
  match disk with
  | none => [myName]
  | some room =>
    let actives :=
      ((room.lastSeen.filter fun kv =>
        dateGt kv.2 ((now : Int) - 300000)).map Prod.fst).eraseDups
    let withSelf := if actives.contains myName then actives
      else actives ++ [myName]
    withSelf.mergeSort fun a b => a ≤ b

/-- The statistics record of getChatStats. -/
structure ChatStats where
  createdAt : DateVal
  totalMessages : Nat
  allAgents : List String
deriving DecidableEq

/-- getChatStats (chat-manager.ts lines 319-342): a missing room throws
"Chat room not found"; otherwise createdAt, the message count, and the
sorted distinct non-System senders. -/
def getChatStats (disk : Option ChatRoom) : Except String ChatStats :=
  match disk with
  | none => .error "Chat room not found"
  | some room =>
    let allAgents :=
      ((room.messages.filter fun m => m.sender ≠ "System").map
        Message.sender).eraseDups
    .ok ⟨room.createdAt, room.messages.length,
      allAgents.mergeSort fun a b => a ≤ b⟩

/-- Room validity for the codec round-trip: every timestamp is a valid Date
before year 10000 (serializable without ECMA's expanded-year form). -/
def validDate : DateVal → Bool
  | some t => decide (t < 253402300800000)
  | none => false

def validRoom (room : ChatRoom) : Bool :=
  validDate room.createdAt &&
    room.messages.all (fun m => validDate m.timestamp) &&
    room.lastSeen.all fun kv => validDate kv.2

/-! ## Concrete instances used by the theorems -/

/-- A concrete valid room exercising every field of the codec. -/
def sampleRoom : ChatRoom :=
  ⟨"/home/user/project",
   [⟨"id-1", "Hans", "Hello there", some 1700000000123, .text,
      some [("key", "value")]⟩,
    ⟨"id-2", "Greta", "Hi", some 1700000001456, .command, none⟩],
   some 1699999999000,
   [("Hans", some 1700000000123), ("Greta", some 1700000001456)]⟩

/-- A message used by the retention counterexample. -/
def fillerMessage : Message := ⟨"filler", "A", "x", some 0, .text, none⟩

/-- A mutate function that leaves 101 entries in the log. -/
def oversizeUpdate : ChatRoom → Except String ChatRoom :=
  fun room => .ok { room with messages := List.replicate 101 fillerMessage }

/-- The entry sequence sendMessage's mutation builds before retention is
applied: the optional creation entry followed by the caller's own entry. -/
def appendedLog (myName sysId msgId content : String) (type : MessageType)
    (metadata : Option Metadata) (t1 t2 : DateVal) (room : ChatRoom) :
    List Message :=
  (if room.messages.length = 0 then
    room.messages ++ [systemCreationMessage myName sysId t1]
   else room.messages) ++ [⟨msgId, myName, content, t2, type, metadata⟩]

/-! ## Helper lemmas: calendar round-trip -/

theorem startOfYoe_eq (c q yq : Nat) (hc : c ≤ 3) (hq : q ≤ 24) (hyq : yq ≤ 3) :
    startOfYoe (100 * c + 4 * q + yq) = 36524 * c + 1461 * q + 365 * yq := by
  unfold startOfYoe
  have h4 : (100 * c + 4 * q + yq) / 4 = 25 * c + q := by omega
  have h100 : (100 * c + 4 * q + yq) / 100 = c := by omega
  rw [h4, h100]
  ring_nf
  omega

theorem yoeOfDoe_spec (doe : Nat) (h : doe < 146097) :
    yoeOfDoe doe ≤ 399 ∧ startOfYoe (yoeOfDoe doe) ≤ doe ∧
      doe - startOfYoe (yoeOfDoe doe) ≤ 365 := by
  have hc : centOf doe ≤ 3 := by unfold centOf; split_ifs <;> omega
  have hcm : centOf doe * 36524 ≤ doe := by unfold centOf; split_ifs <;> omega
  have hdc : docentOf doe = doe - centOf doe * 36524 := rfl
  have hdcb : docentOf doe ≤ 36524 := by unfold docentOf centOf; split_ifs <;> omega
  have hqd : quadOf doe = docentOf doe / 1461 := rfl
  have hqb : quadOf doe ≤ 24 := by rw [hqd]; omega
  have hdq : doqOf doe = docentOf doe - quadOf doe * 1461 := rfl
  have hdqb : doqOf doe ≤ 1460 := by rw [hdq, hqd]; omega
  have hyq3 : yqOf doe ≤ 3 := by unfold yqOf; split_ifs <;> omega
  have hyqle : 365 * yqOf doe ≤ doqOf doe := by unfold yqOf; split_ifs <;> omega
  have hdoy : doqOf doe - 365 * yqOf doe ≤ 365 := by
    unfold yqOf; split_ifs <;> omega
  have hS := startOfYoe_eq (centOf doe) (quadOf doe) (yqOf doe) hc hqb hyq3
  unfold yoeOfDoe
  rw [hS]
  omega

theorem monthOfDoy_le (doy : Nat) (h : doy ≤ 365) : monthOfDoy doy ≤ 11 := by
  unfold monthOfDoy
  omega

theorem monthStart_monthOfDoy_le (doy : Nat) :
    monthStart (monthOfDoy doy) ≤ doy := by
  unfold monthStart monthOfDoy
  omega

theorem monthOfDoy_ge_ten (doy : Nat) (h : 10 ≤ monthOfDoy doy) : 306 ≤ doy := by
  unfold monthOfDoy at h
  omega

theorem monthOfDoy_day_le (doy : Nat) :
    doy - monthStart (monthOfDoy doy) ≤ 30 := by
  unfold monthStart monthOfDoy
  omega

theorem assemble (era yoe doy mp : Nat) (hyoe : yoe ≤ 399) (hmp : mp ≤ 11)
    (hM : monthStart mp ≤ doy) :
    yShift ((if (if mp < 10 then mp + 3 else mp - 9) ≤ 2 then 1 else 0) +
        yoe + era * 400) (if mp < 10 then mp + 3 else mp - 9) =
      yoe + era * 400 ∧
    mpOfMonth (if mp < 10 then mp + 3 else mp - 9) = mp ∧
    monthStart mp + (doy - monthStart mp + 1) - 1 = doy := by
  unfold yShift mpOfMonth
  refine ⟨?_, ?_, ?_⟩ <;> first | (split_ifs <;> omega) | omega

theorem civil_roundtrip (z : Nat) :
    daysFromCivil (yearOfZ z) (monthOfZ z) (dayOfZ z) = z := by
  have hdoe : doeOfZ z < 146097 := Nat.mod_lt _ (by norm_num)
  obtain ⟨hyoe, hS, hdoy⟩ := yoeOfDoe_spec (doeOfZ z) hdoe
  have hdb : doyOfDoe (doeOfZ z) ≤ 365 := hdoy
  have hM : monthStart (mpOfZ z) ≤ doyOfDoe (doeOfZ z) :=
    monthStart_monthOfDoy_le (doyOfDoe (doeOfZ z))
  have hmp : mpOfZ z ≤ 11 := monthOfDoy_le (doyOfDoe (doeOfZ z)) hdb
  have hzdiv : 146097 * eraOfZ z + doeOfZ z = z + 719468 := Nat.div_add_mod _ _
  have hdoyd : doyOfDoe (doeOfZ z) =
      doeOfZ z - startOfYoe (yoeOfDoe (doeOfZ z)) := rfl
  obtain ⟨e1, e2, e3⟩ := assemble (eraOfZ z) (yoeOfDoe (doeOfZ z))
    (doyOfDoe (doeOfZ z)) (mpOfZ z) hyoe hmp hM
  unfold daysFromCivil yearOfZ monthOfZ dayOfZ doyOfCivil
  rw [e1, e2, e3]
  have h4 : (yoeOfDoe (doeOfZ z) + eraOfZ z * 400) / 400 = eraOfZ z := by omega
  have h5 : (yoeOfDoe (doeOfZ z) + eraOfZ z * 400) % 400 =
      yoeOfDoe (doeOfZ z) := by omega
  rw [h4, h5]
  omega

/-! ## Helper lemmas: ISO-8601 string round-trip -/

theorem readDigit_digitChar (d : Nat) (h : d < 10) :
    readDigit (Nat.digitChar d) = some d := by
  interval_cases d <;> decide

theorem readFixed_padNum (w : Nat) : ∀ (n acc : Nat) (rest : List Char),
    n < 10 ^ w →
    readFixed w acc (padNum w n ++ rest) = some (acc * 10 ^ w + n, rest) := by
  induction w with
  | zero =>
    intro n acc rest h
    have hn : n = 0 := by omega
    subst hn
    simp [padNum, readFixed]
  | succ w ih =>
    intro n acc rest h
    have hd : n / 10 ^ w < 10 := by
      rw [Nat.div_lt_iff_lt_mul (Nat.pos_pow_of_pos w (by norm_num))]
      calc n < 10 ^ (w + 1) := h
        _ = 10 ^ w * 10 := by rw [pow_succ]
        _ ≤ 10 * 10 ^ w := by ring_nf; omega
    simp only [padNum, List.cons_append, readFixed, readDigit_digitChar _ hd,
      List.append_eq]
    rw [ih (n % 10 ^ w) (acc * 10 + n / 10 ^ w) rest
      (Nat.mod_lt _ (Nat.pos_pow_of_pos w (by norm_num)))]
    have hdm : n / 10 ^ w * 10 ^ w + n % 10 ^ w = n := Nat.div_add_mod' n _
    congr 1
    rw [Prod.mk.injEq]
    refine ⟨?_, rfl⟩
    calc (acc * 10 + n / 10 ^ w) * 10 ^ w + n % 10 ^ w
        = acc * (10 ^ w * 10) + (n / 10 ^ w * 10 ^ w + n % 10 ^ w) := by ring
      _ = acc * (10 ^ w * 10) + n := by rw [hdm]
      _ = acc * 10 ^ (w + 1) + n := by rw [pow_succ]

theorem readFixed0 {n : Nat} (w : Nat) (rest : List Char) (h : n < 10 ^ w) :
    readFixed w 0 (padNum w n ++ rest) = some (n, rest) := by
  rw [readFixed_padNum w n 0 rest h]
  norm_num

theorem expectChar_cons (c : Char) (cs : List Char) :
    expectChar c (c :: cs) = some cs := by
  simp [expectChar]

theorem readNumSep_pad {n : Nat} (w : Nat) (sep : Char) (rest : List Char)
    (h : n < 10 ^ w) :
    readNumSep w sep (padNum w n ++ sep :: rest) = some (n, rest) := by
  unfold readNumSep
  rw [readFixed0 w _ h]
  simp only [Option.some_bind, expectChar_cons]

theorem monthOfZ_le (z : Nat) : monthOfZ z ≤ 12 := by
  have hdoe : doeOfZ z < 146097 := Nat.mod_lt _ (by norm_num)
  obtain ⟨_, _, hdoy⟩ := yoeOfDoe_spec (doeOfZ z) hdoe
  have hdb : doyOfDoe (doeOfZ z) ≤ 365 := hdoy
  have h11 : mpOfZ z ≤ 11 := monthOfDoy_le (doyOfDoe (doeOfZ z)) hdb
  unfold monthOfZ
  split_ifs <;> omega

theorem dayOfZ_le (z : Nat) : dayOfZ z ≤ 31 := by
  have hday : doyOfDoe (doeOfZ z) - monthStart (mpOfZ z) ≤ 30 :=
    monthOfDoy_day_le (doyOfDoe (doeOfZ z))
  unfold dayOfZ
  omega

theorem yearOfZ_lt (z : Nat) (h : z < 2932897) : yearOfZ z < 10000 := by
  have hdoe : doeOfZ z < 146097 := Nat.mod_lt _ (by norm_num)
  obtain ⟨hyoe, hS, hdoy⟩ := yoeOfDoe_spec (doeOfZ z) hdoe
  have hzdiv : 146097 * eraOfZ z + doeOfZ z = z + 719468 := Nat.div_add_mod _ _
  have hdb : doyOfDoe (doeOfZ z) ≤ 365 := hdoy
  have hmp : mpOfZ z ≤ 11 := monthOfDoy_le (doyOfDoe (doeOfZ z)) hdb
  have hdd : doyOfDoe (doeOfZ z) =
      doeOfZ z - startOfYoe (yoeOfDoe (doeOfZ z)) := rfl
  have hera : eraOfZ z ≤ 24 := by unfold eraOfZ; omega
  have hSdef : startOfYoe (yoeOfDoe (doeOfZ z)) =
      365 * yoeOfDoe (doeOfZ z) + yoeOfDoe (doeOfZ z) / 4 -
        yoeOfDoe (doeOfZ z) / 100 := rfl
  rcases Nat.lt_or_ge (mpOfZ z) 10 with hlt | hge
  · unfold yearOfZ monthOfZ
    split_ifs <;> omega
  · have h306 : 306 ≤ doyOfDoe (doeOfZ z) :=
      monthOfDoy_ge_ten (doyOfDoe (doeOfZ z)) hge
    unfold yearOfZ monthOfZ
    split_ifs <;> omega

theorem parseFormat (Y MO D HH MI SS MS : Nat) (hy : Y < 10 ^ 4)
    (hmo : MO < 10 ^ 2) (hd : D < 10 ^ 2) (hhh : HH < 10 ^ 2)
    (hmi : MI < 10 ^ 2) (hss : SS < 10 ^ 2) (hms : MS < 10 ^ 3) :
    parseISOChars (padNum 4 Y ++ '-' ::
      (padNum 2 MO ++ '-' ::
        (padNum 2 D ++ 'T' ::
          (padNum 2 HH ++ ':' ::
            (padNum 2 MI ++ ':' ::
              (padNum 2 SS ++ '.' ::
                (padNum 3 MS ++ ['Z']))))))) =
      some (daysFromCivil Y MO D * 86400000 +
        HH * 3600000 + MI * 60000 + SS * 1000 + MS) := by
  unfold parseISOChars
  rw [readNumSep_pad 4 _ _ hy]
  simp only [Option.some_bind]
  unfold parseMonthTail
  rw [readNumSep_pad 2 _ _ hmo]
  simp only [Option.some_bind]
  unfold parseDayTail
  rw [readNumSep_pad 2 _ _ hd]
  simp only [Option.some_bind]
  unfold parseHourTail
  rw [readNumSep_pad 2 _ _ hhh]
  simp only [Option.some_bind]
  unfold parseMinTail
  rw [readNumSep_pad 2 _ _ hmi]
  simp only [Option.some_bind]
  unfold parseSecTail
  rw [readNumSep_pad 2 _ _ hss]
  simp only [Option.some_bind]
  unfold parseMsTail
  rw [readFixed0 3 _ hms]
  simp only [Option.some_bind, expectChar_cons]
  rfl

theorem parse_toISO (t : Nat) (h : t < 253402300800000) :
    parseISOChars (toISOChars t) = some t := by
  have hz : t / 86400000 < 2932897 := by omega
  have hy : yearOfZ (t / 86400000) < 10 ^ 4 := by
    have := yearOfZ_lt (t / 86400000) hz
    omega
  have hmo : monthOfZ (t / 86400000) < 10 ^ 2 := by
    have := monthOfZ_le (t / 86400000)
    omega
  have hd : dayOfZ (t / 86400000) < 10 ^ 2 := by
    have := dayOfZ_le (t / 86400000)
    omega
  have hhh : t % 86400000 / 3600000 < 10 ^ 2 := by omega
  have hmi : t % 3600000 / 60000 < 10 ^ 2 := by omega
  have hss : t % 60000 / 1000 < 10 ^ 2 := by omega
  have hms : t % 1000 < 10 ^ 3 := by omega
  unfold toISOChars
  rw [parseFormat _ _ _ _ _ _ _ hy hmo hd hhh hmi hss hms]
  rw [civil_roundtrip (t / 86400000)]
  congr 1
  omega

/-! ## Helper lemmas: codec round-trip and retention -/

theorem dateToISOString_roundtrip (d : DateVal) (h : validDate d = true) :
    (dateToISOString d).map newDateOfString = some d := by
  cases d with
  | none => simp [validDate] at h
  | some t =>
    simp only [validDate, decide_eq_true_eq] at h
    simp only [dateToISOString]
    rw [if_pos h]
    simp only [Option.map_some']
    show some (parseISOChars (toISOChars t)) = some (some t)
    rw [parse_toISO t h]

theorem serializeMessage_roundtrip (m : Message)
    (h : validDate m.timestamp = true) :
    (serializeMessage m).map deserializeMessage = some m := by
  obtain ⟨i, sender, content, ts, ty, md⟩ := m
  have hts := dateToISOString_roundtrip ts h
  unfold serializeMessage
  cases hd : dateToISOString ts with
  | none => rw [hd] at hts; simp at hts
  | some s =>
    rw [hd] at hts
    simp only [Option.map_some', Option.some.injEq] at hts
    simp [Option.some_bind, deserializeMessage, hts]

theorem serializeMessages_roundtrip (ms : List Message)
    (h : ms.all (fun m => validDate m.timestamp) = true) :
    (serializeMessages ms).map (List.map deserializeMessage) = some ms := by
  induction ms with
  | nil => rfl
  | cons m rest ih =>
    simp only [List.all_cons, Bool.and_eq_true] at h
    obtain ⟨h1, h2⟩ := h
    have hm := serializeMessage_roundtrip m h1
    have hrest := ih h2
    unfold serializeMessages
    cases hsm : serializeMessage m with
    | none => rw [hsm] at hm; simp at hm
    | some sm =>
      cases hsms : serializeMessages rest with
      | none => rw [hsms] at hrest; simp at hrest
      | some sms =>
        rw [hsm] at hm
        rw [hsms] at hrest
        simp only [Option.map_some', Option.some.injEq] at hm hrest
        simp [Option.some_bind, hm, hrest]

theorem serializeLastSeen_roundtrip (ls : List (String × DateVal))
    (h : ls.all (fun kv => validDate kv.2) = true) :
    (serializeLastSeen ls).map
        (List.map fun kv => (kv.1, newDateOfString kv.2)) = some ls := by
  induction ls with
  | nil => rfl
  | cons kv rest ih =>
    obtain ⟨k, d⟩ := kv
    simp only [List.all_cons, Bool.and_eq_true] at h
    obtain ⟨h1, h2⟩ := h
    have hd := dateToISOString_roundtrip d h1
    have hrest := ih h2
    unfold serializeLastSeen
    cases hds : dateToISOString d with
    | none => rw [hds] at hd; simp at hd
    | some s =>
      cases hsl : serializeLastSeen rest with
      | none => rw [hsl] at hrest; simp at hrest
      | some srest =>
        rw [hds] at hd
        rw [hsl] at hrest
        simp only [Option.map_some', Option.some.injEq] at hd hrest
        simp [Option.some_bind, hd, hrest]

theorem pruneMessages_length (limit : Nat) (msgs : List Message) :
    (pruneMessages limit msgs).length = min limit msgs.length := by
  unfold pruneMessages
  split_ifs with hc
  · rw [List.length_drop]
    omega
  · omega

theorem pruneMessages_suffix (limit : Nat) (msgs : List Message) :
    List.IsSuffix (pruneMessages limit msgs) msgs := by
  unfold pruneMessages
  split_ifs
  · exact List.drop_suffix _ _
  · exact List.suffix_refl _

/-! ## Claim theorems -/

/-- C2: codec round-trip. For every valid in-memory room whose timestamps
are valid Dates (before year 10000, hence serializable in the standard ISO
form), decoding the encoded value reproduces the original room: same entry
order, same field values, every timestamp exact to the millisecond. The
JSON.stringify plus gzip byte layers are the external lossless pair; the
round-trip content of the repository code is the field mapping together with
toISOString / new Date(string). -/
theorem c2_codec_roundtrip (room : ChatRoom) (h : validRoom room = true) :
    (saveChatRoomData room).map loadChatRoomData = some room := by
  obtain ⟨p, msgs, ca, ls⟩ := room
  simp only [validRoom, Bool.and_eq_true] at h
  obtain ⟨⟨hca, hmsgs⟩, hls⟩ := h
  have h1 := serializeMessages_roundtrip msgs hmsgs
  have h2 := dateToISOString_roundtrip ca hca
  have h3 := serializeLastSeen_roundtrip ls hls
  unfold saveChatRoomData
  cases e1 : serializeMessages msgs with
  | none => rw [e1] at h1; simp at h1
  | some sms =>
  cases e2 : dateToISOString ca with
  | none => rw [e2] at h2; simp at h2
  | some sca =>
  cases e3 : serializeLastSeen ls with
  | none => rw [e3] at h3; simp at h3
  | some sls =>
  rw [e1] at h1
  rw [e2] at h2
  rw [e3] at h3
  simp only [Option.map_some', Option.some.injEq] at h1 h2 h3
  simp [Option.some_bind, loadChatRoomData, h1, h2, h3]

/-- C2 witness: the round-trip evaluated at a concrete two-message room. -/
theorem c2_codec_roundtrip_witness :
    (saveChatRoomData sampleRoom).map loadChatRoomData = some sampleRoom :=
  c2_codec_roundtrip sampleRoom (by decide)

/-- C1 counterexample: the Atomic Update Coordinator itself does not enforce
retention. With the retention ceiling configured to 100, a successful update
through atomicUpdateChatRoom leaves 101 entries in the log. -/
theorem c1_retention_counterexample :
    (getMessageRetentionLimit (some "100")).limit = 100 ∧
    (atomicUpdateChatRoom "/p" 0 (some (emptyChatRoom "/p" 0)) none
        oversizeUpdate none none).result =
      .ok { emptyChatRoom "/p" 0 with
            messages := List.replicate 101 fillerMessage } ∧
    (List.replicate 101 fillerMessage).length = 101 :=
  ⟨by decide, rfl, by simp⟩

/-- C1 amended: retention is enforced inside sendMessage's mutate function,
not by atomicUpdateChatRoom. After every successful update through the
coordinator whose mutation is sendMessage's, the surviving entries number at
most the ceiling, and are exactly the most recent min(ceiling, total) of the
appended sequence in original order (a suffix of it); a heartbeat update
leaves the entries unchanged. -/
theorem c1_retention_amended (limit : Nat)
    (myName content : String) (type : MessageType) (metadata : Option Metadata)
    (sysId msgId : String) (t1 t2 t3 : DateVal) (projectPath : String)
    (now : Nat) (disk0 : Option ChatRoom) (result : ChatRoom)
    (h : (atomicUpdateChatRoom projectPath now disk0 none
        (fun room => .ok (sendMessageMutate myName content type metadata limit
          sysId msgId t1 t2 t3 room)) none none).result = .ok result) :
    result.messages.length ≤ limit ∧
    result.messages.length =
      min limit (appendedLog myName sysId msgId content type metadata t1 t2
        (ensureFileExists projectPath now disk0)).length ∧
    List.IsSuffix result.messages
      (appendedLog myName sysId msgId content type metadata t1 t2
        (ensureFileExists projectPath now disk0)) ∧
    (∀ (t : DateVal) (hb : ChatRoom),
      (atomicUpdateChatRoom projectPath now disk0 none
        (fun room => .ok (heartbeatMutate myName t room)) none none).result =
          .ok hb →
      hb.messages = (ensureFileExists projectPath now disk0).messages) := by
  have h0 : (atomicUpdateChatRoom projectPath now disk0 none
      (fun room => .ok (sendMessageMutate myName content type metadata limit
        sysId msgId t1 t2 t3 room)) none none).result =
      .ok (sendMessageMutate myName content type metadata limit sysId msgId
        t1 t2 t3 (ensureFileExists projectPath now disk0)) := rfl
  rw [h0] at h
  injection h with h
  subst h
  have hmsg : (sendMessageMutate myName content type metadata limit sysId
      msgId t1 t2 t3 (ensureFileExists projectPath now disk0)).messages =
      pruneMessages limit (appendedLog myName sysId msgId content type
        metadata t1 t2 (ensureFileExists projectPath now disk0)) := by
    unfold sendMessageMutate appendedLog
    by_cases hlen : (ensureFileExists projectPath now disk0).messages.length = 0 <;>
      simp [hlen]
  rw [hmsg]
  refine ⟨?_, ?_, pruneMessages_suffix _ _, ?_⟩
  · rw [pruneMessages_length]
    exact Nat.min_le_left _ _
  · exact pruneMessages_length _ _
  · intro t hb hhb
    have h1 : (atomicUpdateChatRoom projectPath now disk0 none
        (fun room => .ok (heartbeatMutate myName t room)) none none).result =
        .ok (heartbeatMutate myName t
          (ensureFileExists projectPath now disk0)) := rfl
    rw [h1] at hhb
    injection hhb with hhb
    rw [← hhb]
    rfl

/-- C1 witness: the amended theorem applied with ceiling 2 to a fresh
resource, for which sendMessage appends two entries. -/
theorem c1_retention_amended_witness :
    (sendMessageMutate "Hans" "hi" .text none 2 "s" "m" (some 1) (some 2)
      (some 3) (ensureFileExists "/p" 0 none)).messages.length ≤ 2 :=
  (c1_retention_amended 2 "Hans" "hi" .text none "s" "m" (some 1)
    (some 2) (some 3) "/p" 0 none
    (sendMessageMutate "Hans" "hi" .text none 2 "s" "m" (some 1) (some 2)
      (some 3) (ensureFileExists "/p" 0 none)) rfl).1

/-- C4: listing is broken for saved rooms. saveChatRoom writes the file
named hex-digest.json.gz with gzip-compressed content, but listSavedChatRooms
keeps only names ending in ".json" and parses file bytes as utf-8 JSON, so a
room just saved never appears in the listing: the claim (and the code's own
doc comment, "Array of project paths that have saved data") requires the
listing to contain the saved room's projectPath. -/
theorem c4_listing_bug :
    (saveChatRoomFile sampleRoom).map (fun f => listSavedChatRooms [f]) =
      some [] ∧
    sampleRoom.projectPath = "/home/user/project" :=
  ⟨by decide, rfl⟩

/-- C5 counterexample: a mutate failure does not always propagate unchanged.
Here the mutate function raises "mutate failed", but the lock release also
fails, and per JS finally semantics the caller receives the release error in
place of the original mutate error. -/
theorem c5_mutation_counterexample :
    (atomicUpdateChatRoom "/p" 0 (some (emptyChatRoom "/p" 0)) none
        (fun _ => .error "mutate failed") none (some "release failed")).result =
      .error (.jsError "release failed") ∧
    "release failed" ≠ "mutate failed" :=
  ⟨rfl, by decide⟩

/-- C5 amended: when the caller-supplied mutate function raises and the lock
release itself succeeds, the update is aborted with no save call, the
on-disk state is left as loaded, the release is still invoked, and the
original error reaches the caller unchanged. -/
theorem c5_mutation_amended (projectPath : String) (now : Nat)
    (disk0 : Option ChatRoom) (e : String)
    (updateFn : ChatRoom → Except String ChatRoom) (saveErr : Option String)
    (h : updateFn (ensureFileExists projectPath now disk0) = .error e) :
    (atomicUpdateChatRoom projectPath now disk0 none updateFn saveErr
        none).result = .error (.jsError e) ∧
    (atomicUpdateChatRoom projectPath now disk0 none updateFn saveErr
        none).saveCalled = false ∧
    (atomicUpdateChatRoom projectPath now disk0 none updateFn saveErr
        none).disk = some (ensureFileExists projectPath now disk0) ∧
    (atomicUpdateChatRoom projectPath now disk0 none updateFn saveErr
        none).releaseCalled = true := by
  simp [atomicUpdateChatRoom, h]

/-- C5 witness: the amended theorem at a concrete failing mutate. -/
theorem c5_mutation_amended_witness :
    (atomicUpdateChatRoom "/p" 0 none none (fun _ => .error "boom") none
      none).result = .error (.jsError "boom") :=
  (c5_mutation_amended "/p" 0 none "boom" (fun _ => .error "boom") none rfl).1

/-- C6 counterexample: a failing lock release is not logged and ignored.
Here mutate and save both succeed, yet the caller's promise rejects with the
release error. -/
theorem c6_release_counterexample :
    (atomicUpdateChatRoom "/p" 0 (some (emptyChatRoom "/p" 0)) none
        (fun r => .ok r) none (some "release failed")).result =
      .error (.jsError "release failed") := rfl

/-- C6 amended: on every exit path on which the lock was acquired -
including a mutate error and a save failure - the release function is
invoked (and it is not invoked when lock acquisition itself failed); but
release is not best-effort: a release failure propagates to the caller and
replaces any in-flight error or result. -/
theorem c6_release_amended (projectPath : String) (now : Nat)
    (disk0 : Option ChatRoom) (updateFn : ChatRoom → Except String ChatRoom)
    (saveErr releaseErr : Option String) :
    (atomicUpdateChatRoom projectPath now disk0 none updateFn saveErr
        releaseErr).releaseCalled = true ∧
    (∀ lockE, (atomicUpdateChatRoom projectPath now disk0 (some lockE)
        updateFn saveErr releaseErr).releaseCalled = false) ∧
    (∀ e, releaseErr = some e →
      (atomicUpdateChatRoom projectPath now disk0 none updateFn saveErr
        releaseErr).result = .error (.jsError e)) := by
  refine ⟨?_, fun lockE => rfl, fun e he => ?_⟩
  · cases releaseErr <;> rfl
  · subst he
    rfl

/-- C6 witness: the amended theorem at a concrete failing release after a
fully successful update. -/
theorem c6_release_amended_witness :
    (atomicUpdateChatRoom "/p" 0 none none (fun r => .ok r) none
      (some "late")).result = .error (.jsError "late") :=
  (c6_release_amended "/p" 0 none (fun r => .ok r) none (some "late")).2.2
    "late" rfl

/-- C7 counterexample: an out-of-range value does not fall back to the
default 1000. The in-range-but-low value 50 is clamped to the minimum 100
(with a diagnostic), not replaced by 1000. -/
theorem c7_retention_config_counterexample :
    getMessageRetentionLimit (some "50") = ⟨100, true⟩ ∧
    ((100 : Int) = 1000) = False :=
  ⟨by decide, by decide⟩

/-- C7 amended: the retention setting never produces an error and always
lands in [100, 50000]: absent or empty gives the default 1000 silently; a
non-numeric value gives 1000 with a diagnostic; a numeric value below 100 is
clamped to 100 and above 50000 to 50000, each with a diagnostic; an in-range
value is used as given. -/
theorem c7_retention_config_amended :
    (∀ env, 100 ≤ (getMessageRetentionLimit env).limit ∧
      (getMessageRetentionLimit env).limit ≤ 50000) ∧
    getMessageRetentionLimit none = ⟨1000, false⟩ ∧
    (∀ s, s ≠ "" → parseIntJs s = none →
      getMessageRetentionLimit (some s) = ⟨1000, true⟩) ∧
    (∀ s n, parseIntJs s = some n → n < 100 →
      getMessageRetentionLimit (some s) = ⟨100, true⟩) ∧
    (∀ s n, parseIntJs s = some n → 50000 < n →
      getMessageRetentionLimit (some s) = ⟨50000, true⟩) ∧
    (∀ s n, parseIntJs s = some n → 100 ≤ n → n ≤ 50000 →
      getMessageRetentionLimit (some s) = ⟨n, false⟩) := by
  have hempty : parseIntJs "" = none := by decide
  have hne : ∀ s n, parseIntJs s = some n → s ≠ "" := by
    intro s n hp hs
    subst hs
    rw [hempty] at hp
    exact Option.noConfusion hp
  refine ⟨?_, rfl, ?_, ?_, ?_, ?_⟩
  · intro env
    cases env with
    | none => simp [getMessageRetentionLimit]
    | some s =>
      simp only [getMessageRetentionLimit]
      split_ifs with h1
      · simp
      · cases hp : parseIntJs s with
        | none => simp
        | some n =>
          simp only []
          split_ifs <;> (simp; try omega)
  · intro s hs hp
    simp [getMessageRetentionLimit, if_neg hs, hp]
  · intro s n hp hn
    simp [getMessageRetentionLimit, if_neg (hne s n hp), hp, hn]
  · intro s n hp hn
    have hn2 : ¬n < 100 := by omega
    simp [getMessageRetentionLimit, if_neg (hne s n hp), hp, hn, hn2]
  · intro s n hp hn1 hn2
    have h1 : ¬n < 100 := by omega
    have h2 : ¬n > 50000 := by omega
    simp [getMessageRetentionLimit, if_neg (hne s n hp), hp, h1, h2]

/-- C7 witness: the amended theorem at concrete inputs - the in-range value
5000 is used as given. -/
theorem c7_retention_config_amended_witness :
    getMessageRetentionLimit (some "5000") = ⟨5000, false⟩ :=
  c7_retention_config_amended.2.2.2.2.2 "5000" 5000 (by decide) (by decide)
    (by decide)

/-- C8 counterexample: resourceStats is an exception to the NotFound policy:
getChatStats on a never-written resource throws "Chat room not found"
instead of returning an empty or optional result. -/
theorem c8_notfound_counterexample :
    getChatStats none = .error "Chat room not found" := rfl

/-- C8 amended: on a never-written resource, getLastMessages,
getFilteredMessages and searchMessages return the empty list, and
getAgentNames returns just the caller's own label - none of them raises;
getChatStats alone raises "Chat room not found". -/
theorem c8_notfound_amended :
    (∀ count, getLastMessages none count = []) ∧
    (∀ now opts, getFilteredMessages none now opts = []) ∧
    (∀ q, searchMessages none q = []) ∧
    (∀ myName now, getAgentNames none myName now = [myName]) ∧
    getChatStats none = .error "Chat room not found" :=
  ⟨fun _ => rfl, fun _ _ => rfl, fun _ => rfl, fun _ _ => rfl, rfl⟩

/-- C9: store-level load semantics. A missing backing file (ENOENT) yields
NotFound (null), not an error; any other read failure, and any decode
failure of the compression stream or the JSON structure, propagates to the
caller as an error; a well-formed file decodes through the codec. -/
theorem c9_load_semantics :
    loadChatRoom .missing = .ok none ∧
    (∀ e, loadChatRoom (.readFailure e) = .error e) ∧
    (∀ e, loadChatRoom (.corruptData e) = .error e) ∧
    (∀ d, loadChatRoom (.wellFormed d) = .ok (some (loadChatRoomData d))) :=
  ⟨rfl, fun _ => rfl, fun _ => rfl, fun _ => rfl⟩

/-- C10: on a resource whose log is empty at mutation time, sendMessage
appends exactly two entries - first a System entry of kind system announcing
the creation by the caller, then the caller's own entry - and returns the
caller's entry id, which differs from the System entry's id; on a resource
with at least one entry, only the caller's entry is appended (followed by
the retention step). -/
theorem c10_first_message (myName content : String) (type : MessageType)
    (metadata : Option Metadata) (limit : Nat) (sysId msgId : String)
    (t1 t2 t3 : DateVal) (projectPath : String) (now : Nat)
    (disk0 : Option ChatRoom) (hlim : 2 ≤ limit) (hids : sysId ≠ msgId) :
    (sendMessage myName projectPath content type metadata limit sysId msgId
        t1 t2 t3 now disk0 none none none).2 = msgId ∧
    ((ensureFileExists projectPath now disk0).messages = [] →
      (sendMessage myName projectPath content type metadata limit sysId msgId
          t1 t2 t3 now disk0 none none none).1.result = .ok
        { ensureFileExists projectPath now disk0 with
          messages := [systemCreationMessage myName sysId t1,
            ⟨msgId, myName, content, t2, type, metadata⟩],
          lastSeen := setLastSeen
            (ensureFileExists projectPath now disk0).lastSeen myName t3 } ∧
      (systemCreationMessage myName sysId t1).id ≠ msgId ∧
      (systemCreationMessage myName sysId t1).sender = "System" ∧
      (systemCreationMessage myName sysId t1).type = .system) ∧
    ((ensureFileExists projectPath now disk0).messages ≠ [] →
      (sendMessage myName projectPath content type metadata limit sysId msgId
          t1 t2 t3 now disk0 none none none).1.result = .ok
        { ensureFileExists projectPath now disk0 with
          messages := pruneMessages limit
            ((ensureFileExists projectPath now disk0).messages ++
              [⟨msgId, myName, content, t2, type, metadata⟩]),
          lastSeen := setLastSeen
            (ensureFileExists projectPath now disk0).lastSeen myName t3 }) := by
  have h0 : (sendMessage myName projectPath content type metadata limit sysId
      msgId t1 t2 t3 now disk0 none none none).1.result =
      .ok (sendMessageMutate myName content type metadata limit sysId msgId
        t1 t2 t3 (ensureFileExists projectPath now disk0)) := rfl
  refine ⟨rfl, fun hempty => ?_, fun hne => ?_⟩
  · rw [h0]
    refine ⟨?_, ?_, rfl, rfl⟩
    · have hlen : (ensureFileExists projectPath now disk0).messages.length = 0 := by
        rw [hempty]
        rfl
      unfold sendMessageMutate
      rw [if_pos hlen, hempty]
      have hp : pruneMessages limit
          ([] ++ [systemCreationMessage myName sysId t1] ++
            [(⟨msgId, myName, content, t2, type, metadata⟩ : Message)]) =
          [systemCreationMessage myName sysId t1,
            ⟨msgId, myName, content, t2, type, metadata⟩] := by
        unfold pruneMessages
        rw [if_neg (by simp; omega)]
        simp
      simp only [List.nil_append] at hp ⊢
      rw [hp]
    · simpa [systemCreationMessage] using hids
  · rw [h0]
    have hlen : ¬(ensureFileExists projectPath now disk0).messages.length = 0 := by
      simpa [List.length_eq_zero] using hne
    unfold sendMessageMutate
    rw [if_neg hlen]

/-- C10 witness: a send to a fresh resource returns the caller's entry id. -/
theorem c10_first_message_witness :
    (sendMessage "Hans" "/p" "hi" .text none 1000 "sys-id" "msg-id" (some 1)
      (some 2) (some 3) 0 none none none none).2 = "msg-id" :=
  (c10_first_message "Hans" "hi" .text none 1000 "sys-id" "msg-id" (some 1)
    (some 2) (some 3) "/p" 0 none (by decide) (by decide)).1

end McpMessaging
